import Mathlib

/-!
Shallow embedding of the ETL pipeline in src/script/etl/pipeline.py.

Dates are modelled as integers (day numbers), real-valued measurements as
rationals, and nullable columns as Option values.  A raw SQL frame carries an
explicit column list so that the eager schema checks of the source can be
stated; the rows themselves always carry all fields (a field of a column that
is absent from the declared schema is simply never consulted by a function
that first checks the schema).  Polars group_by followed by sort is embedded
as a map over the sorted deduplicated list of keys; polars left join is
embedded as structural recursion over the left table, emitting one output row
per match (or a null-extended row when there is no match).  Polars Float64
division is embedded by the type FloatVal, which makes null propagation and
the IEEE non-finite results of division by zero explicit.
-/

namespace Pipeline

instance {ε α : Type} [DecidableEq ε] [DecidableEq α] : DecidableEq (Except ε α)
  | .error a, .error b => decidable_of_iff (a = b) (by simp)
  | .error _, .ok _ => isFalse (by simp)
  | .ok _, .error _ => isFalse (by simp)
  | .ok a, .ok b => decidable_of_iff (a = b) (by simp)

/-- A raw production_logs row: date, tons_extracted (signed), quality_grade
(nullable).  mine_id and shift are never consulted by the transform logic and
are omitted. -/
structure ProdRow where
  date : Int
  tons_extracted : Rat
  quality_grade : Option Rat
  deriving Repr, DecidableEq

/-- A raw SQL frame: the declared column list plus the rows. -/
structure ProdFrame where
  cols : List String
  rows : List ProdRow
  deriving Repr, DecidableEq

/-- One output row of transform_sql_data. -/
structure DailyProdRow where
  date : Int
  total_production_daily : Rat
  average_quality_grade : Option Rat
  deriving Repr, DecidableEq

/-- Embedding of the polars expression
when(tons_extracted >= 0).then(tons_extracted).otherwise(0). -/
def clampNonNeg (q : Rat) : Rat :=
  if 0 ≤ q then q else 0

/-- Polars mean over a column: nulls are dropped from both numerator and
denominator; an all-null column yields null.  The argument is the list of
non-null values. -/
def meanOpt (l : List Rat) : Option Rat :=
  if l = [] then none else some (l.sum / (l.length : Rat))

/-- The sorted list of distinct dates of a row list: the group keys of
group_by("date") after the final sort("date"). -/
def sortedDates (rows : List ProdRow) : List Int :=
  List.insertionSort (· ≤ ·) ((rows.map (·.date)).dedup)

/-- The aggregate row produced for one date group by transform_sql_data. -/
def aggRow (rows : List ProdRow) (d : Int) : DailyProdRow :=
  let grp := rows.filter (fun x => x.date = d)
  { date := d
    total_production_daily := (grp.map (fun x => clampNonNeg x.tons_extracted)).sum
    average_quality_grade := meanOpt (grp.filterMap (·.quality_grade)) }

/-- Embedding of transform_sql_data (pipeline.py lines 180-212): eager checks
for emptiness and for the three required columns, then group by date, sum the
clamped tonnage, average the quality grade, and sort by date. -/
def transform_sql_data (df : ProdFrame) : Except String (List DailyProdRow) :=
  if df.rows = [] then .error "SQL data is empty"
  else if "tons_extracted" ∉ df.cols then
    .error "SQL data must contain tons_extracted column"
  else if "quality_grade" ∉ df.cols then
    .error "SQL data must contain quality_grade column"
  else if "date" ∉ df.cols then
    .error "SQL data must contain date column"
  else .ok ((sortedDates df.rows).map (aggRow df.rows))

/-- Embedding of get_anomaly_data (pipeline.py lines 160-177): eager checks
for emptiness and the tons_extracted column, then filter to negative tonnage
and sort by date.  The sort("date") call itself fails when the frame has no
date column, which the embedding reflects as a third error case. -/
def get_anomaly_data (df : ProdFrame) : Except String (List ProdRow) :=
  if df.rows = [] then .error "SQL data is empty"
  else if "tons_extracted" ∉ df.cols then
    .error "SQL data must contain tons_extracted column"
  else if "date" ∉ df.cols then
    .error "unable to find column date"
  else .ok (List.insertionSort (fun a b => a.date ≤ b.date)
      (df.rows.filter (fun x => x.tons_extracted < 0)))

/-- A raw sensor reading.  The timestamp is in hours since an epoch; its
calendar date is recovered by tsDate.  status is the raw status string and
fuel_consumption the reading value. -/
structure IotRow where
  equipment_id : Nat
  timestamp : Nat
  status : String
  fuel_consumption : Rat
  deriving Repr, DecidableEq

/-- Embedding of the polars expression col("timestamp").dt.date(): the
calendar date (day number) of an hour-resolution timestamp. -/
def tsDate (t : Nat) : Int :=
  ((t / 24 : Nat) : Int)

/-- Embedding of iot_data["equipment_id"].n_unique(): the number of distinct
equipment ids across the whole input. -/
def totalEquipment (rows : List IotRow) : Nat :=
  ((rows.map (·.equipment_id)).dedup).length

/-- One output row of transform_iot_data. -/
structure DailyIotRow where
  date : Int
  equipment_utilization : Rat
  total_fuel_consumption : Rat
  deriving Repr, DecidableEq

/-- The sorted list of distinct dates occurring in a sensor input. -/
def sortedIotDates (rows : List IotRow) : List Int :=
  List.insertionSort (· ≤ ·) ((rows.map (fun r => tsDate r.timestamp)).dedup)

/-- The aggregate row produced for one date group by transform_iot_data.
The denominator 24 * total_equipment is fixed across groups. -/
def iotAggRow (rows : List IotRow) (d : Int) : DailyIotRow :=
  let grp := rows.filter (fun r => tsDate r.timestamp = d)
  { date := d
    equipment_utilization :=
      (((grp.filter (fun r => r.status = "active")).length : Rat)) /
        ((24 * totalEquipment rows : Nat) : Rat)
    total_fuel_consumption := (grp.map (·.fuel_consumption)).sum }

/-- Embedding of transform_iot_data (pipeline.py lines 215-241): fail on an
empty input, count the distinct equipment over the whole input, group by the
calendar date of the timestamp, compute the utilization ratio and the fuel
sum per group, and sort by date. -/
def transform_iot_data (rows : List IotRow) : Except String (List DailyIotRow) :=
  if rows = [] then .error "IoT data is empty"
  else .ok ((sortedIotDates rows).map (iotAggRow rows))

/-- A normalized weather row (after the time column is parsed to a date and
the columns are renamed). -/
structure WeatherRow where
  date : Int
  mean_temperature : Rat
  total_precipitation : Rat
  deriving Repr, DecidableEq

/-- Embedding of transform_weather_data (pipeline.py lines 244-257): fail on
an empty input, otherwise sort by date. -/
def transform_weather_data (rows : List WeatherRow) : Except String (List WeatherRow) :=
  if rows = [] then .error "Weather data is empty"
  else .ok (List.insertionSort (fun a b => a.date ≤ b.date) rows)

/-- The two upstream weather endpoints. -/
inductive Source where
  | archive : Source
  | forecast : Source
  deriving Repr, DecidableEq

/-- One outbound weather request: the endpoint and the inclusive start_date
and end_date query parameters (the open-meteo API treats both bounds as
inclusive). -/
structure WeatherRequest where
  source : Source
  start_date : Int
  end_date : Int
  deriving Repr, DecidableEq

/-- Whether a date is covered by a request (both query bounds inclusive). -/
def inRange (r : WeatherRequest) (d : Int) : Prop :=
  r.start_date ≤ d ∧ d ≤ r.end_date

instance (r : WeatherRequest) (d : Int) : Decidable (inRange r d) := by
  unfold inRange; infer_instance

/-- Embedding of the routing part of load_weather_data (pipeline.py lines
93-140): validate the bounds, then decide which requests to issue.  split is
the freshness boundary (now minus 90 days).  In the spanning branch the
archive request ends at the boundary date itself (end_date = split in the
URL) and the forecast request starts at the boundary date; in the other two
branches a single request covers [start, end]. -/
def planWeatherRequests (s e split : Int) : Except String (List WeatherRequest) :=
  if s > e then .error "Start date must be before end date"
  else if s < split ∧ e ≥ split then
    .ok [⟨Source.archive, s, split⟩, ⟨Source.forecast, split, e⟩]
  else if s < split ∧ e < split then
    .ok [⟨Source.archive, s, e⟩]
  else
    .ok [⟨Source.forecast, s, e⟩]

/-- Embedding of load_weather_data with the network abstracted: fetch gives
the normalized rows each endpoint returns for an inclusive date range.  The
responses of the planned requests are concatenated in plan order, so in the
spanning branch the archive rows come first, then the forecast rows; no sort
is applied here. -/
def load_weather_data (s e split : Int)
    (fetch : Source → Int → Int → List WeatherRow) :
    Except String (List WeatherRow) :=
  (planWeatherRequests s e split).map
    (fun reqs => (reqs.map (fun r => fetch r.source r.start_date r.end_date)).flatten)

/-- A polars Float64 cell: null, a finite value, one of the two infinities,
or NaN.  Finite values are represented exactly as rationals. -/
inductive FloatVal where
  | null : FloatVal
  | finite : Rat → FloatVal
  | posInf : FloatVal
  | negInf : FloatVal
  | nan : FloatVal
  deriving Repr, DecidableEq

/-- Whether a FloatVal is an ordinary finite number. -/
def FloatVal.isFinite : FloatVal → Bool
  | .finite _ => true
  | _ => false

/-- Embedding of polars Float64 column division a / b: null propagates, and
division of a finite value by zero follows IEEE 754 (positive / 0 = +inf,
negative / 0 = -inf, 0 / 0 = NaN). -/
def fdiv (a : Option Rat) (b : Rat) : FloatVal :=
  match a with
  | none => .null
  | some x =>
    if b = 0 then
      if 0 < x then .posInf else if x < 0 then .negInf else .nan
    else .finite (x / b)

/-- A row after the first left join (production joined with telemetry);
telemetry columns are nullable. -/
structure Joined1 where
  date : Int
  total_production_daily : Rat
  average_quality_grade : Option Rat
  equipment_utilization : Option Rat
  total_fuel_consumption : Option Rat
  deriving Repr, DecidableEq

/-- A row after the second left join (weather added); weather columns are
nullable. -/
structure Joined2 where
  date : Int
  total_production_daily : Rat
  average_quality_grade : Option Rat
  equipment_utilization : Option Rat
  total_fuel_consumption : Option Rat
  mean_temperature : Option Rat
  total_precipitation : Option Rat
  deriving Repr, DecidableEq

/-- A final metrics row, with the derived fuel_efficiency column. -/
structure MetricsRow where
  date : Int
  total_production_daily : Rat
  average_quality_grade : Option Rat
  equipment_utilization : Option Rat
  total_fuel_consumption : Option Rat
  mean_temperature : Option Rat
  total_precipitation : Option Rat
  fuel_efficiency : FloatVal
  deriving Repr, DecidableEq

/-- Embedding of the first left join in main (pipeline.py lines 295-297):
for each production row in order, emit one output row per telemetry row with
a matching date, or a single null-extended row when there is no match. -/
def joinTelemetry : List DailyProdRow → List DailyIotRow → List Joined1
  | [], _ => []
  | p :: ps, iot =>
    (let ms := iot.filter (fun t => t.date = p.date)
     if ms = [] then
       [⟨p.date, p.total_production_daily, p.average_quality_grade, none, none⟩]
     else
       ms.map (fun t => ⟨p.date, p.total_production_daily, p.average_quality_grade,
         some t.equipment_utilization, some t.total_fuel_consumption⟩)) ++
      joinTelemetry ps iot

/-- Embedding of the second left join in main: weather rows are matched on
date onto the already-joined rows. -/
def joinWeather : List Joined1 → List WeatherRow → List Joined2
  | [], _ => []
  | j :: js, wx =>
    (let ms := wx.filter (fun w => w.date = j.date)
     if ms = [] then
       [⟨j.date, j.total_production_daily, j.average_quality_grade,
         j.equipment_utilization, j.total_fuel_consumption, none, none⟩]
     else
       ms.map (fun w => ⟨j.date, j.total_production_daily, j.average_quality_grade,
         j.equipment_utilization, j.total_fuel_consumption,
         some w.mean_temperature, some w.total_precipitation⟩)) ++
      joinWeather js wx

/-- Embedding of the with_columns step in main (pipeline.py lines 299-303):
derive fuel_efficiency = total_fuel_consumption / total_production_daily on
every row. -/
def withFuelEfficiency (rs : List Joined2) : List MetricsRow :=
  rs.map (fun r =>
    ⟨r.date, r.total_production_daily, r.average_quality_grade,
      r.equipment_utilization, r.total_fuel_consumption,
      r.mean_temperature, r.total_precipitation,
      fdiv r.total_fuel_consumption r.total_production_daily⟩)

/-- The join-and-derive stage of main: left-join telemetry, then weather,
onto production, then derive fuel_efficiency. -/
def computeMetrics (prod : List DailyProdRow) (iot : List DailyIotRow)
    (wx : List WeatherRow) : List MetricsRow :=
  withFuelEfficiency (joinWeather (joinTelemetry prod iot) wx)

/-! Helper lemmas. -/

lemma clampNonNeg_eq_max (q : Rat) : clampNonNeg q = max q 0 := by
  unfold clampNonNeg
  rcases le_total 0 q with h | h
  · rw [if_pos h, max_eq_left h]
  · rcases eq_or_lt_of_le h with h1 | h1
    · simp [← h1]
    · rw [if_neg (not_le.mpr h1), max_eq_right h]

lemma sortedDates_mem (rows : List ProdRow) (d : Int) :
    d ∈ sortedDates rows ↔ d ∈ rows.map (·.date) := by
  unfold sortedDates
  rw [(List.perm_insertionSort _ _).mem_iff, List.mem_dedup]

lemma sortedDates_pairwise (rows : List ProdRow) :
    (sortedDates rows).Pairwise (· < ·) := by
  have hs : (sortedDates rows).Pairwise (· ≤ ·) := List.sorted_insertionSort _ _
  have hn : (sortedDates rows).Nodup :=
    ((List.perm_insertionSort _ _).nodup_iff).mpr (List.nodup_dedup _)
  exact (hs.and hn).imp fun h => lt_of_le_of_ne h.1 h.2

lemma aggRow_date (rows : List ProdRow) (d : Int) : (aggRow rows d).date = d := rfl

end Pipeline

namespace Pipeline

/-! Theorems for the claims about weather routing (C1, C10). -/

/-- Claim C1 counterexample: at start 0, end 10, boundary 5, the spanning
branch issues an archive request whose inclusive end_date is the boundary
itself, so the boundary date 5 is covered by both the archive and the
forecast request, contradicting that the archive request is for
[start, boundary) with the boundary excluded and that no date is requested
from both sources. -/
theorem weather_boundary_requested_twice :
    planWeatherRequests 0 10 5 =
      .ok [⟨Source.archive, 0, 5⟩, ⟨Source.forecast, 5, 10⟩] ∧
    inRange ⟨Source.archive, 0, 5⟩ 5 ∧ inRange ⟨Source.forecast, 5, 10⟩ 5 := by
  refine ⟨?_, ?_, ?_⟩ <;> decide

/-- Claim C1 (amended): for a range spanning the freshness boundary the fetch
issues exactly two requests, an archive request for [start, boundary] with
the boundary included and a forecast request for [boundary, end]; together
they cover exactly [start, end], the boundary is the one date requested from
both sources, and the results are concatenated archive rows first, then
forecast rows. -/
theorem weather_split_spanning (s e split : Int) (h1 : s < split) (h2 : split ≤ e) :
    planWeatherRequests s e split =
      .ok [⟨Source.archive, s, split⟩, ⟨Source.forecast, split, e⟩] ∧
    (∀ d : Int, (s ≤ d ∧ d ≤ e) ↔
      (inRange ⟨Source.archive, s, split⟩ d ∨ inRange ⟨Source.forecast, split, e⟩ d)) ∧
    (∀ d : Int, (inRange ⟨Source.archive, s, split⟩ d ∧
      inRange ⟨Source.forecast, split, e⟩ d) ↔ d = split) ∧
    (∀ fetch : Source → Int → Int → List WeatherRow,
      load_weather_data s e split fetch =
        .ok (fetch Source.archive s split ++ fetch Source.forecast split e)) := by
  have hse : ¬s > e := by omega
  have hplan : planWeatherRequests s e split =
      .ok [⟨Source.archive, s, split⟩, ⟨Source.forecast, split, e⟩] := by
    unfold planWeatherRequests
    rw [if_neg hse, if_pos ⟨h1, h2⟩]
  refine ⟨hplan, ?_, ?_, ?_⟩
  · intro d
    unfold inRange
    simp only
    omega
  · intro d
    unfold inRange
    simp only
    omega
  · intro fetch
    unfold load_weather_data
    rw [hplan]
    simp [Except.map]

/-- Witness for weather_split_spanning at start 0, boundary 7, end 20. -/
theorem weather_split_spanning_witness :
    (0 : Int) < 7 ∧ (7 : Int) ≤ 20 ∧
    planWeatherRequests 0 20 7 =
      .ok [⟨Source.archive, 0, 7⟩, ⟨Source.forecast, 7, 20⟩] :=
  ⟨by decide, by decide, (weather_split_spanning 0 20 7 (by decide) (by decide)).1⟩

/-- Claim C10: equal start and end dates pass validation and produce exactly
one single-day request, and the inverted-range error (whose message reads
Start date must be before end date) is raised exactly when start is strictly
greater than end. -/
theorem equal_dates_accepted :
    (∀ s split : Int, ∃ reqs, planWeatherRequests s s split = .ok reqs ∧
      reqs.length = 1 ∧ ∀ r ∈ reqs, r.start_date = s ∧ r.end_date = s) ∧
    (∀ s e split : Int,
      (planWeatherRequests s e split =
        .error "Start date must be before end date") ↔ e < s) := by
  constructor
  · intro s split
    unfold planWeatherRequests
    rw [if_neg (lt_irrefl s)]
    by_cases h : s < split
    · rw [if_neg (by omega), if_pos ⟨h, h⟩]
      exact ⟨_, rfl, rfl, by simp⟩
    · rw [if_neg (by omega), if_neg (by omega)]
      exact ⟨_, rfl, rfl, by simp⟩
  · intro s e split
    unfold planWeatherRequests
    split_ifs with h1 h2 h3 <;> simp <;> omega

/-! Theorem for the fuel-efficiency claim (C4). -/

/-- Claim C4: on every row of the joined metrics table fuel_efficiency is
the (null-propagating, IEEE) division of total_fuel_consumption by
total_production_daily; whenever total_production_daily is zero the result
is never a finite number (in particular not 0), and with a non-null fuel
value of 5 it is exactly positive infinity. -/
theorem fuel_efficiency_div (prod : List DailyProdRow) (iot : List DailyIotRow)
    (wx : List WeatherRow) :
    ∀ r ∈ computeMetrics prod iot wx,
      r.fuel_efficiency = fdiv r.total_fuel_consumption r.total_production_daily ∧
      (r.total_production_daily = 0 →
        r.fuel_efficiency.isFinite = false ∧ r.fuel_efficiency ≠ .finite 0) ∧
      (r.total_production_daily = 0 → r.total_fuel_consumption = some 5 →
        r.fuel_efficiency = .posInf) := by
  intro r hr
  unfold computeMetrics withFuelEfficiency at hr
  rw [List.mem_map] at hr
  obtain ⟨j, hj, rfl⟩ := hr
  refine ⟨rfl, ?_, ?_⟩
  · intro hz
    simp only at hz
    unfold fdiv
    cases hf : j.total_fuel_consumption with
    | none => simp [FloatVal.isFinite]
    | some x =>
      simp only [hz, if_pos rfl]
      split_ifs <;> simp [FloatVal.isFinite]
  · intro hz hf
    simp only at hz hf
    simp [fdiv, hf, hz]

/-- Concrete production and telemetry inputs for the fuel-efficiency
witness: one production date with zero total production and a telemetry row
with fuel 5 on the same date. -/
def prodW4 : List DailyProdRow := [⟨100, 0, none⟩]

/-- Telemetry input for the fuel-efficiency witness. -/
def iotW4 : List DailyIotRow := [⟨100, 0, 5⟩]

/-- The metrics row computeMetrics produces from prodW4, iotW4 and an empty
weather table. -/
def rowW4 : MetricsRow := ⟨100, 0, none, some 0, some 5, none, none, .posInf⟩

/-- Witness for fuel_efficiency_div: on the concrete zero-production date
the derived fuel efficiency is positive infinity. -/
theorem fuel_efficiency_div_witness :
    rowW4 ∈ computeMetrics prodW4 iotW4 [] ∧
    rowW4.fuel_efficiency = FloatVal.posInf := by
  have hm : rowW4 ∈ computeMetrics prodW4 iotW4 [] := by
    norm_num +decide [computeMetrics, prodW4, iotW4, rowW4, joinTelemetry,
      joinWeather, withFuelEfficiency, fdiv]
  exact ⟨hm, (fuel_efficiency_div prodW4 iotW4 [] rowW4 hm).2.2 rfl rfl⟩

/-! Theorems for the error-condition claim (C8). -/

/-- A non-empty frame that declares date and tons_extracted but not
quality_grade. -/
def frameNoQuality : ProdFrame :=
  ⟨["date", "tons_extracted"], [⟨0, 1, none⟩]⟩

/-- Claim C8 counterexample: on a non-empty input with date and
tons_extracted but no quality_grade column, the anomaly extractor succeeds
while the production aggregator raises its schema error, so the two do not
fail under the same conditions. -/
theorem anomaly_error_counterexample :
    get_anomaly_data frameNoQuality = .ok [] ∧
    transform_sql_data frameNoQuality =
      .error "SQL data must contain quality_grade column" := by
  constructor <;>
    norm_num +decide [get_anomaly_data, transform_sql_data, frameNoQuality]

/-- Claim C8 (amended): the anomaly extractor fails exactly when the input
is empty or lacks the tons_extracted column or lacks the date column (the
latter only at its sort step), while the production aggregator additionally
fails when quality_grade is absent; so every extractor failure is an
aggregator failure but not conversely. -/
theorem anomaly_error_conditions (df : ProdFrame) :
    ((∃ m, get_anomaly_data df = .error m) ↔
      df.rows = [] ∨ "tons_extracted" ∉ df.cols ∨ "date" ∉ df.cols) ∧
    ((∃ m, transform_sql_data df = .error m) ↔
      df.rows = [] ∨ "tons_extracted" ∉ df.cols ∨
        "quality_grade" ∉ df.cols ∨ "date" ∉ df.cols) ∧
    ((∃ m, get_anomaly_data df = .error m) →
      ∃ m, transform_sql_data df = .error m) := by
  have h1 : (∃ m, get_anomaly_data df = .error m) ↔
      df.rows = [] ∨ "tons_extracted" ∉ df.cols ∨ "date" ∉ df.cols := by
    unfold get_anomaly_data
    split_ifs with a b c <;> simp_all
  have h2 : (∃ m, transform_sql_data df = .error m) ↔
      df.rows = [] ∨ "tons_extracted" ∉ df.cols ∨
        "quality_grade" ∉ df.cols ∨ "date" ∉ df.cols := by
    unfold transform_sql_data
    split_ifs with a b c d <;> simp_all
  exact ⟨h1, h2, fun h => h2.mpr (by rcases h1.mp h with h | h | h <;> tauto)⟩

/-- Witness for anomaly_error_conditions at frameNoQuality: the production
aggregator reports an error on that frame. -/
theorem anomaly_error_conditions_witness :
    ∃ m, transform_sql_data frameNoQuality = .error m :=
  (anomaly_error_conditions frameNoQuality).2.1.mpr
    (Or.inr (Or.inr (Or.inl (by decide))))

/-- Witness for equal_dates_accepted at the concrete equal dates 3 and 3
with boundary 9. -/
theorem equal_dates_accepted_witness :
    ∃ reqs, planWeatherRequests 3 3 9 = .ok reqs ∧ reqs.length = 1 ∧
      ∀ r ∈ reqs, r.start_date = 3 ∧ r.end_date = 3 :=
  equal_dates_accepted.1 3 9

/-! Theorems for the production aggregation claims (C2, C7, C3). -/

lemma transform_sql_data_ok (df : ProdFrame) (h1 : df.rows ≠ [])
    (h2 : "tons_extracted" ∈ df.cols) (h3 : "quality_grade" ∈ df.cols)
    (h4 : "date" ∈ df.cols) :
    transform_sql_data df = .ok ((sortedDates df.rows).map (aggRow df.rows)) := by
  unfold transform_sql_data
  rw [if_neg h1, if_neg (not_not_intro h2), if_neg (not_not_intro h3),
    if_neg (not_not_intro h4)]

lemma get_anomaly_data_ok (df : ProdFrame) (h1 : df.rows ≠ [])
    (h2 : "tons_extracted" ∈ df.cols) (h4 : "date" ∈ df.cols) :
    get_anomaly_data df = .ok (List.insertionSort (fun a b => a.date ≤ b.date)
      (df.rows.filter (fun x => x.tons_extracted < 0))) := by
  unfold get_anomaly_data
  rw [if_neg h1, if_neg (not_not_intro h2), if_neg (not_not_intro h4)]

/-- Claim C2: on a non-empty input with the required columns, the production
aggregation succeeds and yields one row per distinct input date in strictly
increasing date order; each total_production_daily is the sum of
max(tons_extracted, 0) over that date's rows, and a date whose rows are all
negative still appears with total 0. -/
theorem production_aggregation (df : ProdFrame) (h1 : df.rows ≠ [])
    (h2 : "tons_extracted" ∈ df.cols) (h3 : "quality_grade" ∈ df.cols)
    (h4 : "date" ∈ df.cols) :
    ∃ out, transform_sql_data df = .ok out ∧
      (∀ d : Int, d ∈ out.map (·.date) ↔ d ∈ df.rows.map (·.date)) ∧
      (out.map (·.date)).Pairwise (· < ·) ∧
      (∀ r ∈ out, r.total_production_daily =
        ((df.rows.filter (fun x => x.date = r.date)).map
          (fun x => max x.tons_extracted 0)).sum) ∧
      (∀ r ∈ out,
        (∀ x ∈ df.rows.filter (fun x => x.date = r.date), x.tons_extracted < 0) →
        r.total_production_daily = 0) := by
  refine ⟨(sortedDates df.rows).map (aggRow df.rows),
    transform_sql_data_ok df h1 h2 h3 h4, ?_, ?_, ?_, ?_⟩
  · intro d
    rw [List.map_map]
    have : ((fun r : DailyProdRow => r.date) ∘ aggRow df.rows) = id := by
      funext x; rfl
    rw [this, List.map_id]
    exact sortedDates_mem df.rows d
  · rw [List.map_map]
    have : ((fun r : DailyProdRow => r.date) ∘ aggRow df.rows) = id := by
      funext x; rfl
    rw [this, List.map_id]
    exact sortedDates_pairwise df.rows
  · intro r hr
    rw [List.mem_map] at hr
    obtain ⟨d, _, rfl⟩ := hr
    show ((df.rows.filter (fun x => x.date = d)).map
        (fun x => clampNonNeg x.tons_extracted)).sum = _
    rw [aggRow_date]
    exact congrArg List.sum (List.map_congr_left fun x _ =>
      clampNonNeg_eq_max x.tons_extracted)
  · intro r hr hneg
    rw [List.mem_map] at hr
    obtain ⟨d, _, rfl⟩ := hr
    show ((df.rows.filter (fun x => x.date = d)).map
        (fun x => clampNonNeg x.tons_extracted)).sum = 0
    apply List.sum_eq_zero
    intro q hq
    rw [List.mem_map] at hq
    obtain ⟨x, hx, rfl⟩ := hq
    have := hneg x (by rw [aggRow_date]; exact hx)
    unfold clampNonNeg
    rw [if_neg (not_le.mpr this)]

/-- A concrete production frame for the aggregation witnesses: date 0 has one
positive and one negative row, date 1 has only a negative row; one quality
grade is null. -/
def frameW : ProdFrame :=
  ⟨["date", "tons_extracted", "quality_grade"],
    [⟨0, 5, some 2⟩, ⟨0, -3, none⟩, ⟨1, -4, some 7⟩]⟩

/-- Witness for production_aggregation on frameW: the aggregate keeps both
dates, the clamped total of date 0 is 5 and the all-negative date 1 gets
total 0. -/
theorem production_aggregation_witness :
    frameW.rows ≠ [] ∧
    transform_sql_data frameW = .ok [⟨0, 5, some 2⟩, ⟨1, 0, some 7⟩] := by
  obtain ⟨out, hout, -, -, -, -⟩ :=
    production_aggregation frameW (by decide) (by decide) (by decide) (by decide)
  have hval : transform_sql_data frameW = .ok [⟨0, 5, some 2⟩, ⟨1, 0, some 7⟩] := by
    norm_num +decide [transform_sql_data, frameW, sortedDates, aggRow, meanOpt,
      clampNonNeg, List.dedup, List.filter, List.filterMap]
  exact ⟨by decide, hval⟩

/-- Claim C7: on a valid input every output row's average_quality_grade is
the arithmetic mean of the non-null quality grades of that date's rows: a
null grade is dropped from both the numerator and the denominator, and an
all-null date yields a null average. -/
theorem quality_mean_ignores_null (df : ProdFrame) (h1 : df.rows ≠ [])
    (h2 : "tons_extracted" ∈ df.cols) (h3 : "quality_grade" ∈ df.cols)
    (h4 : "date" ∈ df.cols) :
    ∃ out, transform_sql_data df = .ok out ∧
      ∀ r ∈ out,
        r.average_quality_grade =
          (if ((df.rows.filter (fun x => x.date = r.date)).filterMap
              (·.quality_grade)) = [] then none
           else some ((((df.rows.filter (fun x => x.date = r.date)).filterMap
              (·.quality_grade)).sum) /
            ((((df.rows.filter (fun x => x.date = r.date)).filterMap
              (·.quality_grade)).length : Nat) : Rat))) := by
  refine ⟨(sortedDates df.rows).map (aggRow df.rows),
    transform_sql_data_ok df h1 h2 h3 h4, ?_⟩
  intro r hr
  rw [List.mem_map] at hr
  obtain ⟨d, _, rfl⟩ := hr
  show meanOpt ((df.rows.filter (fun x => x.date = d)).filterMap
    (·.quality_grade)) = _
  rw [aggRow_date]
  rfl

/-- Witness for quality_mean_ignores_null on frameW: on date 0 the null
grade is dropped, so the average is 2, not the nulls-as-zero value 1. -/
theorem quality_mean_ignores_null_witness :
    frameW.rows ≠ [] ∧
    transform_sql_data frameW = .ok [⟨0, 5, some 2⟩, ⟨1, 0, some 7⟩] ∧
    (some 2 : Option Rat) ≠ some 1 := by
  obtain ⟨out, hout, -⟩ :=
    quality_mean_ignores_null frameW (by decide) (by decide) (by decide) (by decide)
  have hval : transform_sql_data frameW = .ok [⟨0, 5, some 2⟩, ⟨1, 0, some 7⟩] := by
    norm_num +decide [transform_sql_data, frameW, sortedDates, aggRow, meanOpt,
      clampNonNeg, List.dedup, List.filter, List.filterMap]
  exact ⟨by decide, hval, by decide⟩

lemma sum_abs_neg_eq (l : List Rat) :
    ((l.filter (fun q => q < 0)).map (fun q => |q|)).sum =
      (l.map clampNonNeg).sum - l.sum := by
  induction l with
  | nil => simp
  | cons a l ih =>
    by_cases h : a < 0
    · rw [List.filter_cons_of_pos (by simpa using h)]
      simp only [List.map_cons, List.sum_cons]
      rw [ih, abs_of_neg h]
      unfold clampNonNeg
      rw [if_neg (not_le.mpr h)]
      ring
    · rw [List.filter_cons_of_neg (by simpa using h)]
      simp only [List.map_cons, List.sum_cons]
      rw [ih]
      unfold clampNonNeg
      rw [if_pos (not_lt.mp h)]
      ring

/-- A two-row frame on one date with a positive and a negative tonnage. -/
def exFrame3 : ProdFrame :=
  ⟨["date", "tons_extracted", "quality_grade"], [⟨0, 5, none⟩, ⟨0, -3, none⟩]⟩

/-- Claim C3 counterexample: on a date with rows 5 and -3 the anomaly rows
have absolute sum 3 and the aggregated total is 5, but the naive sum minus
the total is 2 - 5 = -3, so the identity as claimed (naive sum minus total)
fails; the true difference is total minus naive sum. -/
theorem clamping_identity_counterexample :
    transform_sql_data exFrame3 = .ok [⟨0, 5, none⟩] ∧
    get_anomaly_data exFrame3 = .ok [⟨0, -3, none⟩] ∧
    (([⟨0, -3, none⟩] : List ProdRow).map (fun x => |x.tons_extracted|)).sum ≠
      ((exFrame3.rows.filter (fun x => x.date = 0)).map (·.tons_extracted)).sum
        - 5 := by
  refine ⟨?_, ?_, ?_⟩
  · norm_num +decide [transform_sql_data, exFrame3, sortedDates, aggRow, meanOpt,
      clampNonNeg, List.dedup, List.filter, List.filterMap]
  · norm_num +decide [get_anomaly_data, exFrame3, List.filter]
  · norm_num +decide [exFrame3, List.filter]

/-- Claim C3 (amended): for every valid production input and every output
date, the sum of the absolute values of that date's negative rows (the rows
the anomaly extractor returns for that date) equals total_production_daily
minus the naive per-date sum of tons_extracted: the sign of the claimed
identity is reversed. -/
theorem clamping_identity (df : ProdFrame) (h1 : df.rows ≠ [])
    (h2 : "tons_extracted" ∈ df.cols) (h3 : "quality_grade" ∈ df.cols)
    (h4 : "date" ∈ df.cols) :
    ∃ out anom, transform_sql_data df = .ok out ∧
      get_anomaly_data df = .ok anom ∧
      ∀ r ∈ out,
        ((anom.filter (fun x => x.date = r.date)).map
            (fun x => |x.tons_extracted|)).sum =
          r.total_production_daily -
            ((df.rows.filter (fun x => x.date = r.date)).map
              (·.tons_extracted)).sum := by
  refine ⟨_, _, transform_sql_data_ok df h1 h2 h3 h4,
    get_anomaly_data_ok df h1 h2 h4, ?_⟩
  intro r hr
  rw [List.mem_map] at hr
  obtain ⟨d, _, rfl⟩ := hr
  rw [aggRow_date]
  have key := sum_abs_neg_eq
    ((df.rows.filter (fun x => x.date = d)).map (·.tons_extracted))
  rw [List.filter_map, List.map_map, List.map_map] at key
  have hperm :
      ((List.insertionSort (fun a b => a.date ≤ b.date)
          (df.rows.filter (fun x => x.tons_extracted < 0))).filter
          (fun x => x.date = d)).Perm
        ((df.rows.filter (fun x => x.tons_extracted < 0)).filter
          (fun x => x.date = d)) :=
    (List.perm_insertionSort _ _).filter _
  rw [(hperm.map (fun x => |x.tons_extracted|)).sum_eq, List.filter_comm]
  show _ = ((df.rows.filter (fun x => x.date = d)).map
    (fun x => clampNonNeg x.tons_extracted)).sum - _
  exact key

/-- Witness for clamping_identity on frameW: at date 0 the anomaly absolute
sum 3 equals the total 5 minus the naive sum 2. -/
theorem clamping_identity_witness :
    frameW.rows ≠ [] ∧
    transform_sql_data frameW = .ok [⟨0, 5, some 2⟩, ⟨1, 0, some 7⟩] ∧
    get_anomaly_data frameW = .ok [⟨0, -3, none⟩, ⟨1, -4, some 7⟩] := by
  obtain ⟨out, anom, hout, hanom, -⟩ :=
    clamping_identity frameW (by decide) (by decide) (by decide) (by decide)
  refine ⟨by decide, ?_, ?_⟩
  · norm_num +decide [transform_sql_data, frameW, sortedDates, aggRow, meanOpt,
      clampNonNeg, List.dedup, List.filter, List.filterMap]
  · norm_num +decide [get_anomaly_data, frameW, List.filter]

/-! Theorems for the telemetry utilization claim (C9). -/

lemma sortedIotDates_mem (rows : List IotRow) (d : Int) :
    d ∈ sortedIotDates rows ↔ d ∈ rows.map (fun r => tsDate r.timestamp) := by
  unfold sortedIotDates
  rw [(List.perm_insertionSort _ _).mem_iff, List.mem_dedup]

lemma iotAggRow_date (rows : List IotRow) (d : Int) :
    (iotAggRow rows d).date = d := rfl

lemma totalEquipment_pos (rows : List IotRow) (h : rows ≠ []) :
    0 < totalEquipment rows := by
  unfold totalEquipment
  rw [List.length_pos]
  intro hnil
  cases rows with
  | nil => exact h rfl
  | cons a l =>
    have ha : a.equipment_id ∈ ((a :: l).map (·.equipment_id)).dedup := by
      rw [List.mem_dedup]; simp
    rw [hnil] at ha
    exact absurd ha (List.not_mem_nil _)

/-- Twenty-five active readings of a single equipment on one calendar date:
finer-than-hourly cadence. -/
def iotBad : List IotRow := List.replicate 25 ⟨1, 0, "active", 0⟩

/-- Claim C9 counterexample: with 25 active readings of one equipment on one
date the utilization is 25/24, which exceeds 1, so utilization is not always
in [0,1]. -/
theorem utilization_above_one :
    transform_iot_data iotBad = .ok [⟨0, 25/24, 0⟩] ∧ (1 : Rat) < 25/24 := by
  constructor
  · have hrep : iotBad = List.replicate 25 ⟨1, 0, "active", 0⟩ := rfl
    rw [transform_iot_data, if_neg (by rw [hrep]; simp)]
    rw [sortedIotDates, hrep]
    rw [show (List.replicate 25 (⟨1, 0, "active", 0⟩ : IotRow)).map
        (fun r => tsDate r.timestamp) = List.replicate 25 (0 : Int) from by
      rw [List.map_replicate]; rfl]
    rw [show (List.replicate 25 (0 : Int)).dedup = [0] from by decide]
    rw [show List.insertionSort (fun a b => a ≤ b) [(0 : Int)] = [0] from rfl]
    rw [List.map_singleton]
    congr 1
    simp only [iotAggRow]
    rw [show (List.replicate 25 (⟨1, 0, "active", 0⟩ : IotRow)).filter
        (fun r => tsDate r.timestamp = 0) =
        List.replicate 25 ⟨1, 0, "active", 0⟩ from by decide]
    rw [show (List.replicate 25 (⟨1, 0, "active", 0⟩ : IotRow)).filter
        (fun r => r.status = "active") =
        List.replicate 25 ⟨1, 0, "active", 0⟩ from by decide]
    rw [show totalEquipment (List.replicate 25 ⟨1, 0, "active", 0⟩) = 1 from by
      decide]
    rw [show (List.replicate 25 (⟨1, 0, "active", 0⟩ : IotRow)).map
        (·.fuel_consumption) = List.replicate 25 (0 : Rat) from by
      rw [List.map_replicate]]
    simp only [List.length_replicate, List.sum_replicate, smul_zero]
    norm_num
  · norm_num

/-- Claim C9 (amended): every utilization value equals
count(status active on the date) / (24 * count of distinct equipment across
the whole input) and is nonnegative; it is at most 1 under the hourly-
cadence assumption that each date has at most 24 * total_equipment readings,
but can exceed 1 for finer cadences. -/
theorem utilization_formula (rows : List IotRow) (h1 : rows ≠ [])
    (h2 : ∀ d ∈ rows.map (fun r => tsDate r.timestamp),
      (rows.filter (fun r => tsDate r.timestamp = d)).length ≤
        24 * totalEquipment rows) :
    ∃ out, transform_iot_data rows = .ok out ∧
      ∀ r ∈ out,
        r.equipment_utilization =
          (((rows.filter (fun x => tsDate x.timestamp = r.date)).filter
              (fun x => x.status = "active")).length : Rat) /
            ((24 * totalEquipment rows : Nat) : Rat) ∧
        0 ≤ r.equipment_utilization ∧ r.equipment_utilization ≤ 1 := by
  have hok : transform_iot_data rows =
      .ok ((sortedIotDates rows).map (iotAggRow rows)) := by
    unfold transform_iot_data
    rw [if_neg h1]
  refine ⟨_, hok, ?_⟩
  intro r hr
  rw [List.mem_map] at hr
  obtain ⟨d, hd, rfl⟩ := hr
  rw [iotAggRow_date]
  have hform : (iotAggRow rows d).equipment_utilization =
      (((rows.filter (fun x => tsDate x.timestamp = d)).filter
          (fun x => x.status = "active")).length : Rat) /
        ((24 * totalEquipment rows : Nat) : Rat) := rfl
  have hdpos : (0 : Rat) < ((24 * totalEquipment rows : Nat) : Rat) := by
    have hpos := totalEquipment_pos rows h1
    have : 0 < 24 * totalEquipment rows := by omega
    exact_mod_cast this
  refine ⟨hform, ?_, ?_⟩
  · rw [hform]
    exact div_nonneg (by positivity) hdpos.le
  · rw [hform, div_le_one hdpos]
    have hle1 : ((rows.filter (fun x => tsDate x.timestamp = d)).filter
        (fun x => x.status = "active")).length ≤
        (rows.filter (fun x => tsDate x.timestamp = d)).length :=
      List.length_filter_le _ _
    have hle2 := h2 d ((sortedIotDates_mem rows d).mp hd)
    exact_mod_cast le_trans hle1 hle2

/-- A two-reading telemetry input for the utilization witness: one equipment
with one active and one idle reading on the same date. -/
def rowsW9 : List IotRow := [⟨1, 0, "active", 2⟩, ⟨1, 1, "idle", 3⟩]

/-- Witness for utilization_formula on rowsW9: the utilization 1/24 is in
[0,1]. -/
theorem utilization_formula_witness :
    rowsW9 ≠ [] ∧ transform_iot_data rowsW9 = .ok [⟨0, 1/24, 5⟩] ∧
    (0 : Rat) ≤ (1/24 : Rat) ∧ (1/24 : Rat) ≤ 1 := by
  obtain ⟨out, hout, hall⟩ := utilization_formula rowsW9 (by decide) (by decide)
  have hval : transform_iot_data rowsW9 = .ok [⟨0, 1/24, 5⟩] := by
    norm_num +decide [transform_iot_data, rowsW9, sortedIotDates, iotAggRow,
      totalEquipment, tsDate, List.dedup, List.filter]
  have heq : out = [⟨0, 1/24, 5⟩] := Except.ok.inj (hout.symm.trans hval)
  subst heq
  obtain ⟨-, hnn, hle⟩ := hall ⟨0, 1/24, 5⟩ (List.mem_singleton.mpr rfl)
  exact ⟨by decide, hval, hnn, hle⟩

/-! Theorems for the metrics join claim (C5). -/

lemma filter_key_unique {α : Type} (key : α → Int) (l : List α)
    (h : (l.map key).Nodup) (c : Int) :
    (l.filter (fun x => key x = c)).length ≤ 1 := by
  induction l with
  | nil => simp
  | cons a l ih =>
    rw [List.map_cons, List.nodup_cons] at h
    rw [List.filter_cons]
    by_cases hc : key a = c
    · rw [if_pos (by simpa using hc)]
      have hnil : l.filter (fun x => key x = c) = [] := by
        rw [List.filter_eq_nil_iff]
        intro x hx
        simp only [decide_eq_true_eq]
        intro hk
        have hmem : key x ∈ List.map key l := List.mem_map_of_mem _ hx
        rw [hk, ← hc] at hmem
        exact h.1 hmem
      rw [hnil]
      simp
    · rw [if_neg (by simpa using hc)]
      exact ih h.2

lemma singleton_of_length_le_one {α : Type} (l : List α) (h : l.length ≤ 1)
    (hne : l ≠ []) : ∃ a, l = [a] := by
  cases l with
  | nil => exact absurd rfl hne
  | cons a t =>
    cases t with
    | nil => exact ⟨a, rfl⟩
    | cons b u => simp at h

lemma joinTelemetry_map_date (prod : List DailyProdRow) (iot : List DailyIotRow)
    (h : (iot.map (·.date)).Nodup) :
    (joinTelemetry prod iot).map (·.date) = prod.map (·.date) := by
  induction prod with
  | nil => rfl
  | cons p ps ih =>
    rw [joinTelemetry, List.map_append, ih, List.map_cons]
    by_cases hnil : iot.filter (fun t => t.date = p.date) = []
    · rw [if_pos hnil]
      rfl
    · have hlen := filter_key_unique (·.date) iot h p.date
      obtain ⟨t, ht⟩ := singleton_of_length_le_one _ hlen hnil
      rw [if_neg hnil, ht]
      rfl

lemma joinTelemetry_unmatched (prod : List DailyProdRow) (iot : List DailyIotRow) :
    ∀ j ∈ joinTelemetry prod iot, j.date ∉ iot.map (·.date) →
      j.equipment_utilization = none ∧ j.total_fuel_consumption = none := by
  induction prod with
  | nil => simp [joinTelemetry]
  | cons p ps ih =>
    intro j hj hd
    rw [joinTelemetry, List.mem_append] at hj
    rcases hj with hj | hj
    · by_cases hnil : iot.filter (fun t => t.date = p.date) = []
      · rw [if_pos hnil, List.mem_singleton] at hj
        subst hj
        exact ⟨rfl, rfl⟩
      · rw [if_neg hnil, List.mem_map] at hj
        obtain ⟨t, ht, rfl⟩ := hj
        exfalso
        apply hd
        have := List.of_mem_filter ht
        simp only [decide_eq_true_eq] at this
        show p.date ∈ _
        rw [← this]
        exact List.mem_map_of_mem _ (List.mem_of_mem_filter ht)
    · exact ih j hj hd

lemma joinWeather_map_date (js : List Joined1) (wx : List WeatherRow)
    (h : (wx.map (·.date)).Nodup) :
    (joinWeather js wx).map (·.date) = js.map (·.date) := by
  induction js with
  | nil => rfl
  | cons j rest ih =>
    rw [joinWeather, List.map_append, ih, List.map_cons]
    by_cases hnil : wx.filter (fun w => w.date = j.date) = []
    · rw [if_pos hnil]
      rfl
    · have hlen := filter_key_unique (·.date) wx h j.date
      obtain ⟨w, hw⟩ := singleton_of_length_le_one _ hlen hnil
      rw [if_neg hnil, hw]
      rfl

lemma joinWeather_src (js : List Joined1) (wx : List WeatherRow) :
    ∀ r ∈ joinWeather js wx, ∃ j ∈ js, r.date = j.date ∧
      r.equipment_utilization = j.equipment_utilization ∧
      r.total_fuel_consumption = j.total_fuel_consumption := by
  induction js with
  | nil => simp [joinWeather]
  | cons j rest ih =>
    intro r hr
    rw [joinWeather, List.mem_append] at hr
    rcases hr with hr | hr
    · by_cases hnil : wx.filter (fun w => w.date = j.date) = []
      · rw [if_pos hnil, List.mem_singleton] at hr
        subst hr
        exact ⟨j, List.mem_cons_self _ _, rfl, rfl, rfl⟩
      · rw [if_neg hnil, List.mem_map] at hr
        obtain ⟨w, hw, rfl⟩ := hr
        exact ⟨j, List.mem_cons_self _ _, rfl, rfl, rfl⟩
    · obtain ⟨j', hj', hs⟩ := ih r hr
      exact ⟨j', List.mem_cons_of_mem _ hj', hs⟩

lemma joinWeather_unmatched (js : List Joined1) (wx : List WeatherRow) :
    ∀ r ∈ joinWeather js wx, r.date ∉ wx.map (·.date) →
      r.mean_temperature = none ∧ r.total_precipitation = none := by
  induction js with
  | nil => simp [joinWeather]
  | cons j rest ih =>
    intro r hr hd
    rw [joinWeather, List.mem_append] at hr
    rcases hr with hr | hr
    · by_cases hnil : wx.filter (fun w => w.date = j.date) = []
      · rw [if_pos hnil, List.mem_singleton] at hr
        subst hr
        exact ⟨rfl, rfl⟩
      · rw [if_neg hnil, List.mem_map] at hr
        obtain ⟨w, hw, rfl⟩ := hr
        exfalso
        apply hd
        have := List.of_mem_filter hw
        simp only [decide_eq_true_eq] at this
        show j.date ∈ _
        rw [← this]
        exact List.mem_map_of_mem _ (List.mem_of_mem_filter hw)
    · exact ih r hr hd

lemma withFuelEfficiency_map_date (rs : List Joined2) :
    (withFuelEfficiency rs).map (·.date) = rs.map (·.date) := by
  unfold withFuelEfficiency
  rw [List.map_map]
  rfl

/-- Claim C5: with telemetry and weather tables that have at most one row
per date (as aggregated daily tables do), the sequential left joins preserve
the production dates exactly (same dates, same order, no duplicates and no
drops), and a production date missing from telemetry or weather gets
explicit null telemetry or weather columns (in particular not zero). -/
theorem left_join_preserves_production (prod : List DailyProdRow)
    (iot : List DailyIotRow) (wx : List WeatherRow)
    (hprod : (prod.map (·.date)).Nodup)
    (hiot : (iot.map (·.date)).Nodup)
    (hwx : (wx.map (·.date)).Nodup) :
    (computeMetrics prod iot wx).map (·.date) = prod.map (·.date) ∧
    ((computeMetrics prod iot wx).map (·.date)).Nodup ∧
    (∀ r ∈ computeMetrics prod iot wx, r.date ∉ iot.map (·.date) →
      r.equipment_utilization = none ∧ r.total_fuel_consumption = none ∧
      r.equipment_utilization ≠ some 0 ∧ r.total_fuel_consumption ≠ some 0) ∧
    (∀ r ∈ computeMetrics prod iot wx, r.date ∉ wx.map (·.date) →
      r.mean_temperature = none ∧ r.total_precipitation = none ∧
      r.mean_temperature ≠ some 0 ∧ r.total_precipitation ≠ some 0) := by
  have hdates : (computeMetrics prod iot wx).map (·.date) = prod.map (·.date) := by
    unfold computeMetrics
    rw [withFuelEfficiency_map_date, joinWeather_map_date _ _ hwx,
      joinTelemetry_map_date _ _ hiot]
  have hsrc : ∀ r ∈ computeMetrics prod iot wx, ∃ j ∈ joinWeather (joinTelemetry prod iot) wx,
      r.date = j.date ∧ r.equipment_utilization = j.equipment_utilization ∧
      r.total_fuel_consumption = j.total_fuel_consumption ∧
      r.mean_temperature = j.mean_temperature ∧
      r.total_precipitation = j.total_precipitation := by
    intro r hr
    unfold computeMetrics withFuelEfficiency at hr
    rw [List.mem_map] at hr
    obtain ⟨j, hj, rfl⟩ := hr
    exact ⟨j, hj, rfl, rfl, rfl, rfl, rfl⟩
  refine ⟨hdates, by rw [hdates]; exact hprod, ?_, ?_⟩
  · intro r hr hd
    obtain ⟨j, hj, hdate, hu, hf, -, -⟩ := hsrc r hr
    obtain ⟨j1, hj1, hdate1, hu1, hf1⟩ := joinWeather_src _ _ j hj
    have := joinTelemetry_unmatched prod iot j1 hj1
      (by rw [← hdate1, ← hdate]; exact hd)
    rw [hu, hf, hu1, hf1, this.1, this.2]
    exact ⟨rfl, rfl, by simp, by simp⟩
  · intro r hr hd
    obtain ⟨j, hj, hdate, -, -, ht, hp⟩ := hsrc r hr
    have := joinWeather_unmatched _ _ j hj (by rw [← hdate]; exact hd)
    rw [ht, hp, this.1, this.2]
    exact ⟨rfl, rfl, by simp, by simp⟩

/-- Production input for the join witness: dates 10 and 20. -/
def prodW5 : List DailyProdRow := [⟨10, 4, none⟩, ⟨20, 6, none⟩]

/-- Telemetry input for the join witness: only date 10. -/
def iotW5 : List DailyIotRow := [⟨10, 0, 7⟩]

/-- Weather input for the join witness: only date 10. -/
def wxW5 : List WeatherRow := [⟨10, 30, 0⟩]

/-- Witness for left_join_preserves_production: with production dates 10 and
20 but telemetry and weather only for 10, the output still has exactly the
two production dates. -/
theorem left_join_preserves_production_witness :
    (prodW5.map (·.date)).Nodup ∧ (iotW5.map (·.date)).Nodup ∧
    (wxW5.map (·.date)).Nodup ∧
    (computeMetrics prodW5 iotW5 wxW5).map (·.date) = prodW5.map (·.date) :=
  ⟨by decide, by decide, by decide,
    (left_join_preserves_production prodW5 iotW5 wxW5
      (by decide) (by decide) (by decide)).1⟩

/-! Theorem for the weather sortedness claim (C6). -/

/-- Claim C6: if each endpoint returns its rows in ascending date order and
within the requested inclusive range (the upstream API contract), then the
table the weather fetch returns is sorted by date ascending in all three
routing cases, including the archive-then-forecast concatenation. -/
theorem weather_result_sorted (s e split : Int)
    (fetch : Source → Int → Int → List WeatherRow)
    (hsort : ∀ src a b, List.Chain' (fun x y => x.date ≤ y.date) (fetch src a b))
    (hbound : ∀ src a b, ∀ w ∈ fetch src a b, a ≤ w.date ∧ w.date ≤ b)
    (out : List WeatherRow) (hout : load_weather_data s e split fetch = .ok out) :
    List.Chain' (fun x y => x.date ≤ y.date) out := by
  unfold load_weather_data planWeatherRequests at hout
  split_ifs at hout with h1 h2 h3
  · exact absurd hout (by simp [Except.map])
  · have hout2 : fetch Source.archive s split ++ fetch Source.forecast split e
        = out := by simpa [Except.map] using hout
    rw [← hout2]
    apply List.Chain'.append (hsort _ _ _) (hsort _ _ _)
    intro x hx y hy
    exact le_trans (hbound _ _ _ x (List.mem_of_mem_getLast? hx)).2
      (hbound _ _ _ y (List.mem_of_mem_head? hy)).1
  · have hout2 : fetch Source.archive s e = out := by
      simpa [Except.map] using hout
    rw [← hout2]
    exact hsort _ _ _
  · have hout2 : fetch Source.forecast s e = out := by
      simpa [Except.map] using hout
    rw [← hout2]
    exact hsort _ _ _

/-- A concrete fetch for the sortedness witness: each request is answered by
a single row dated at the start of the requested range. -/
def fetchW : Source → Int → Int → List WeatherRow :=
  fun _ a b => if a ≤ b then [⟨a, 0, 0⟩] else []

/-- Witness for weather_result_sorted on the spanning range 0..10 with
boundary 5 under fetchW. -/
theorem weather_result_sorted_witness :
    load_weather_data 0 10 5 fetchW = .ok [⟨0, 0, 0⟩, ⟨5, 0, 0⟩] ∧
    List.Chain' (fun x y : WeatherRow => x.date ≤ y.date)
      [⟨0, 0, 0⟩, ⟨5, 0, 0⟩] := by
  refine ⟨by decide, weather_result_sorted 0 10 5 fetchW ?_ ?_ _ (by decide)⟩
  · intro src a b
    unfold fetchW
    split_ifs <;> simp
  · intro src a b w hw
    unfold fetchW at hw
    split_ifs at hw with h
    · rw [List.mem_singleton] at hw
      subst hw
      exact ⟨le_refl _, h⟩
    · exact absurd hw (List.not_mem_nil _)

end Pipeline
